import Mathlib

/-!
Shallow embedding of the porteden/cli core: the retrying HTTP request
executor (internal/api, `doWithRetry` and helpers) and the browser login
flow (internal/auth, `Login` / `pollForCompletion`), plus the credential
store (internal/auth/store.go).

Durations are modelled as `Int` nanoseconds, matching Go `time.Duration`.
Network interaction is modelled by oracles: a transport oracle giving the
outcome of each HTTP attempt, and event oracles resolving each `select`
(context cancellation vs. timer vs. ticker), since real time and real I/O
are outside the embedding.  String literals follow the Go source except
that single-quote characters inside Go messages are elided.
-/

deriving instance DecidableEq for Except

namespace Porteden

/-- One second in nanoseconds, as in Go `time.Second`. -/
def nsPerSecond : Int := 1000000000

namespace Api

/-- `maxRetries = 3` from internal/api client constants. -/
def maxRetries : Nat := 3

/-- `initialBackoff = 1 * time.Second`. -/
def initialBackoff : Int := 1 * nsPerSecond

/-- `maxBackoff = 30 * time.Second`. -/
def maxBackoff : Int := 30 * nsPerSecond

/-- Embeds `isRetryable`: the switch on the response status code. -/
def isRetryable (statusCode : Nat) : Bool :=
  match statusCode with
  | 429 | 500 | 502 | 503 | 504 => true
  | _ => false

/-- The `Retry-After` header of a response, classified by how the Go code
parses it: absent, an integer accepted by `strconv.Atoi`, an HTTP date
accepted by `http.ParseTime` (recorded as the value of `time.Until(t)` in
nanoseconds at parse time), or a string neither parser accepts. -/
inductive RetryAfterHeader where
  | absent
  | seconds (n : Int)
  | httpDate (untilT : Int)
  | unparseable
deriving DecidableEq

/-- An HTTP response as far as `doWithRetry` inspects it: status code and
the `Retry-After` header. -/
structure Response where
  statusCode : Nat
  retryAfter : RetryAfterHeader
deriving DecidableEq

/-- Embeds `getRetryAfter`: empty header yields 0; an integer is taken as
seconds; an HTTP date yields `time.Until(t)`; anything else yields 0. -/
def getRetryAfter (resp : Response) : Int :=
  match resp.retryAfter with
  | .absent => 0
  | .seconds n => n * nsPerSecond
  | .httpDate untilT => untilT
  | .unparseable => 0

/-- Outcome of one transport round trip (`c.httpClient.Do(req)`): either a
network-level error or a response. -/
inductive TransportResult where
  | netError (msg : String)
  | response (resp : Response)
deriving DecidableEq

/-- The `lastErr` recorded by the retry loop: a network error, or the
`fmt.Errorf("HTTP %d", statusCode)` for a retryable status. -/
inductive LastErr where
  | netErr (msg : String)
  | httpStatus (code : Nat)
deriving DecidableEq

/-- Final outcome of `doWithRetry`: a returned response, a context
cancellation during a backoff wait, or budget exhaustion wrapping the last
observed failure. -/
inductive DoOutcome where
  | success (resp : Response)
  | cancelled
  | exhausted (lastErr : Option LastErr)
deriving DecidableEq

/-- Result of a run together with its observable trace: the body bytes
handed to each issued HTTP request (in order), and the backoff durations
actually waited before each retry attempt. -/
structure RunResult where
  outcome : DoOutcome
  bodiesSent : List (Option (List Nat))
  waits : List Int
deriving DecidableEq

/-- The backoff update after a retryable response, exactly as in the code:
honor a positive `Retry-After` capped at `maxBackoff`, otherwise double the
previous backoff capped at `maxBackoff`. -/
def nextBackoffResp (backoff : Int) (resp : Response) : Int :=
  if getRetryAfter resp > 0 then min (getRetryAfter resp) maxBackoff
  else min (backoff * 2) maxBackoff

/-- The backoff update for any failed attempt: network errors double the
previous backoff (capped), retryable responses follow `nextBackoffResp`. -/
def nextBackoff (backoff : Int) (t : TransportResult) : Int :=
  match t with
  | .netError _ => min (backoff * 2) maxBackoff
  | .response resp => nextBackoffResp backoff resp

/-- Trace bookkeeping for one loop iteration that issued a request with
`body` after waiting `waitsHere` (empty on attempt 0): prepend both to the
trace of the rest of the run. -/
def consRun (body : Option (List Nat)) (waitsHere : List Int) (r : RunResult) :
    RunResult :=
  ⟨r.outcome, body :: r.bodiesSent, waitsHere ++ r.waits⟩

/-- The loop body of `doWithRetry`, one constructor application per loop
iteration.  `transport i` gives the outcome of the request issued on
attempt `i`; `cancelDuringWait i` says whether `ctx.Done()` fires before
`time.After(backoff)` in the select guarding attempt `i > 0`.  `fuel`
counts the remaining loop iterations (`maxRetries + 1 - attempt`); when it
reaches 0 the loop has exhausted its budget and returns the wrapped last
error.  A fresh reader over `body` is built on every attempt, so each
issued request records the same `body` in the trace. -/
def doWithRetryAux (transport : Nat → TransportResult) (cancelDuringWait : Nat → Bool)
    (body : Option (List Nat)) :
    Nat → Nat → Int → Option LastErr → RunResult
  | 0, _, _, lastErr => ⟨.exhausted lastErr, [], []⟩
  | fuel + 1, attempt, backoff, _lastErr =>
    if attempt != 0 && cancelDuringWait attempt then
      ⟨.cancelled, [], []⟩
    else
      match transport attempt with
      | .netError msg =>
        consRun body (if attempt != 0 then [backoff] else [])
          (doWithRetryAux transport cancelDuringWait body fuel (attempt + 1)
            (min (backoff * 2) maxBackoff) (some (.netErr msg)))
      | .response resp =>
        if isRetryable resp.statusCode then
          consRun body (if attempt != 0 then [backoff] else [])
            (doWithRetryAux transport cancelDuringWait body fuel (attempt + 1)
              (nextBackoffResp backoff resp) (some (.httpStatus resp.statusCode)))
        else
          ⟨.success resp, [body], if attempt != 0 then [backoff] else []⟩

/-- Embeds `doWithRetry`: run the loop from attempt 0 with
`backoff = initialBackoff` and a budget of `maxRetries + 1` attempts. -/
def doWithRetry (transport : Nat → TransportResult) (cancelDuringWait : Nat → Bool)
    (body : Option (List Nat)) : RunResult :=
  doWithRetryAux transport cancelDuringWait body (maxRetries + 1) 0 initialBackoff none

/-- A transport outcome the loop treats as a failed attempt: a network
error, or a response with a retryable status. -/
def isFailure (t : TransportResult) : Bool :=
  match t with
  | .netError _ => true
  | .response resp => isRetryable resp.statusCode

/-- The `lastErr` value the loop records for a failed attempt. -/
def lastErrOf (t : TransportResult) : LastErr :=
  match t with
  | .netError msg => .netErr msg
  | .response resp => .httpStatus resp.statusCode

/-- The backoff value in force after `j` further failed attempts when it
was `b` on entry to attempt `a`: each failed attempt `a + j` updates it
through `nextBackoff`. -/
def backoffSeq (transport : Nat → TransportResult) (b : Int) (a : Nat) : Nat → Int
  | 0 => b
  | j + 1 => nextBackoff (backoffSeq transport b a j) (transport (a + j))

/-- The wait schedule the specification describes: the wait before retry
attempt `i + 1` is derived from the previous backoff — `initialBackoff`
before any retry — and the outcome of attempt `i`, honoring a positive
parsed `Retry-After` capped at `maxBackoff` (`nextBackoffResp`) and
doubling capped at `maxBackoff` for network errors and responses without
a positive `Retry-After`. -/
def claimWaitSchedule (transport : Nat → TransportResult) : Nat → Int
  | 0 => nextBackoff initialBackoff (transport 0)
  | i + 1 => nextBackoff (claimWaitSchedule transport i) (transport (i + 1))

/-- A concrete transport used to witness the backoff schedule: a plain
500, then a 429 carrying `Retry-After: 5`, then a network error, then an
always-503 tail. -/
def mixedTransport : Nat → TransportResult := fun i =>
  if i == 0 then .response ⟨500, .absent⟩
  else if i == 1 then .response ⟨429, .seconds 5⟩
  else if i == 2 then .netError "dial tcp: connection refused"
  else .response ⟨503, .absent⟩

end Api

namespace Auth

/-- Poll response body shape (internal/auth, `PollResponse`): `status`,
optional `apiKey`, optional `error`. -/
structure PollResponse where
  status : String
  apiKey : Option String
  error : Option String
deriving DecidableEq

/-- What `json.Unmarshal` yields on the bytes of a 200 poll response. -/
inductive PollBody where
  | unparseable
  | parsed (p : PollResponse)
deriving DecidableEq

/-- Outcome of one `httpClient.Get(pollURL)` round trip as the loop sees
it: a network error, a body-read error, or a status code with the parse
classification of the body. -/
inductive PollHTTP where
  | netError
  | readError
  | response (statusCode : Nat) (body : PollBody)
deriving DecidableEq

/-- Which channel fires first in a `select` of the poll flow: the context
(user interrupt), the overall timeout timer, or the delay/ticker channel. -/
inductive PollEvent where
  | ctxDone
  | timerFired
  | tick
deriving DecidableEq

/-- The overall poll timeout (internal/auth `pollForCompletion` lines
computing `timeout`): the time until the server-declared expiry, raised to
a 90 second floor.  `untilExpiry` is the value of `time.Until(expiresAt)`
in nanoseconds when `pollForCompletion` starts. -/
def pollTimeoutNs (untilExpiry : Int) : Int :=
  if untilExpiry < 90 * nsPerSecond then 90 * nsPerSecond else untilExpiry

/-- Processing of one completed poll round trip, exactly following the
Go loop body: `none` means `continue` (poll again on the next tick),
`some r` means the loop returns with `r`.  Network and read errors
continue; non-200 statuses branch on 404, 429, ≥ 500, 400, then continue;
a 200 body that fails to parse continues; a parsed body branches on its
`status` field, with unknown statuses continuing. -/
def processPoll (r : PollHTTP) : Option (Except String String) :=
  match r with
  | .netError => none
  | .readError => none
  | .response statusCode body =>
    if statusCode != 200 then
      if statusCode == 404 then
        some (.error "login session expired. Please try again")
      else if statusCode == 429 then
        some (.error "too many login attempts. Please wait a minute and try again")
      else if statusCode ≥ 500 then none
      else if statusCode == 400 then none
      else none
    else
      match body with
      | .unparseable => none
      | .parsed p =>
        match p.status with
        | "completed" =>
          match p.apiKey with
          | some k => some (.ok k)
          | none => some (.error "no API key in response")
        | "expired" => some (.error "login session expired")
        | "failed" =>
          some (.error (Option.getD p.error "authentication failed"))
        | "invalid_secret" =>
          some (.error "invalid poll secret - session may be compromised")
        | _ => none

/-- Result of the polling phase: a terminal result together with the
number of poll requests issued, or fuel exhaustion (the model bound on an
in-principle unbounded loop). -/
inductive PollLoopResult where
  | finished (result : Except String String) (pollsIssued : Nat)
  | fuelOut (pollsIssued : Nat)
deriving DecidableEq

/-- The ticker loop of `pollForCompletion`.  Iteration `n` resolves its
select through `events n`: the context cancels, the overall timer fires,
or the 3-second tick issues poll `n` whose round trip outcome is
`polls n`, processed by `processPoll`. -/
def pollLoopAux (events : Nat → PollEvent) (polls : Nat → PollHTTP) :
    Nat → Nat → PollLoopResult
  | 0, n => .fuelOut n
  | fuel + 1, n =>
    match events n with
    | .ctxDone => .finished (.error "login cancelled by user") n
    | .timerFired => .finished (.error "login timed out") n
    | .tick =>
      match processPoll (polls n) with
      | some r => .finished r (n + 1)
      | none => pollLoopAux events polls fuel (n + 1)

/-- Embeds `pollForCompletion`: first the select over the initial
10-second delay (context, overall timer, delay expiry), resolved by
`initEvent`; then the ticker loop.  Session token, poll secret and the
poll URL are opaque to the control flow and omitted. -/
def pollForCompletion (initEvent : PollEvent) (events : Nat → PollEvent)
    (polls : Nat → PollHTTP) (fuel : Nat) : PollLoopResult :=
  match initEvent with
  | .ctxDone => .finished (.error "login cancelled by user") 0
  | .timerFired => .finished (.error "login timed out") 0
  | .tick => pollLoopAux events polls fuel 0

/-- In-memory view of the credential store file
(internal/auth/store.go `credentialStore`): active profile name and the
profile-to-key map, modelled as an association list. -/
structure CredStore where
  activeProfile : String
  profiles : List (String × String)
deriving DecidableEq

/-- Go map update `Profiles[p] = key` on the association-list model. -/
def setProfileKey : List (String × String) → String → String → List (String × String)
  | [], p, key => [(p, key)]
  | (q, v) :: rest, p, key =>
    if q = p then (p, key) :: rest else (q, v) :: setProfileKey rest p key

/-- Go map read `Profiles[p]` on the association-list model. -/
def lookupProfile (ps : List (String × String)) (p : String) : Option String :=
  List.lookup p ps

/-- The error message of `ensureStore` (single quotes of the Go text
elided). -/
def notInitMsg : String :=
  "credential store not initialized - run porteden auth login first"

/-- Embeds `ensureStore`: fails when the package-level `store` pointer is
still nil.  The global is modelled as an explicit `Option CredStore`. -/
def ensureStore (store : Option CredStore) : Except String Unit :=
  match store with
  | none => .error notInitMsg
  | some _ => .ok ()

/-- Embeds `StoreAPIKey`: ensure the store is initialized, default the
empty profile to "default", set the key, save.  The file write of
`saveStore` is outside the embedding and modelled as succeeding. -/
def StoreAPIKey (apiKey profile : String) (store : Option CredStore) :
    Except String Unit × Option CredStore :=
  match store with
  | none => (.error notInitMsg, none)
  | some s =>
    let p := if profile = "" then "default" else profile
    (.ok (), some { s with profiles := setProfileKey s.profiles p apiKey })

/-- Embeds `GetActiveProfile`: returns "default" when the store is not
initialized, the stored active profile otherwise.  Note it does not
report an error on an uninitialized store. -/
def GetActiveProfile (store : Option CredStore) : String :=
  match store with
  | none => "default"
  | some s => s.activeProfile

/-- Embeds `GetStoredAPIKey`: ensure initialized, default the empty
profile to the active profile, look up, and treat a missing or empty key
as an error (the Go message quotes the profile with %q; quoting elided). -/
def GetStoredAPIKey (profile : String) (store : Option CredStore) :
    Except String String :=
  match store with
  | none => .error notInitMsg
  | some s =>
    let p := if profile = "" then GetActiveProfile store else profile
    match lookupProfile s.profiles p with
    | some key =>
      if key = "" then .error ("no API key found for profile " ++ p) else .ok key
    | none => .error ("no API key found for profile " ++ p)

/-- Go map delete on the association-list model. -/
def eraseProfile : List (String × String) → String → List (String × String)
  | [], _ => []
  | (q, v) :: rest, p => if q = p then rest else (q, v) :: eraseProfile rest p

/-- Embeds `DeleteAPIKey`: ensure initialized, default the empty profile
to "default", delete the entry, save. -/
def DeleteAPIKey (profile : String) (store : Option CredStore) :
    Except String Unit × Option CredStore :=
  match store with
  | none => (.error notInitMsg, none)
  | some s =>
    let p := if profile = "" then "default" else profile
    (.ok (), some { s with profiles := eraseProfile s.profiles p })

/-- Embeds `SetActiveProfile`: ensure initialized, set the active profile,
save. -/
def SetActiveProfile (profile : String) (store : Option CredStore) :
    Except String Unit × Option CredStore :=
  match store with
  | none => (.error notInitMsg, none)
  | some s => (.ok (), some { s with activeProfile := profile })

/-- Embeds `ListProfiles`: ensure initialized, return the sorted profile
names and the active profile. -/
def ListProfiles (store : Option CredStore) :
    Except String (List String × String) :=
  match store with
  | none => .error notInitMsg
  | some s =>
    .ok ((s.profiles.map Prod.fst).mergeSort (fun a b => decide (a ≤ b)),
      s.activeProfile)

/-- Outcome of the login-initiation POST as `Login` sees it: transport
error, body-read error, or a status code with the result `json.Unmarshal`
would give on the body (only consulted when the status is 200). -/
inductive InitiateResult where
  | netError
  | readError
  | response (statusCode : Nat) (parsedOk : Bool)
deriving DecidableEq

/-- Result of a `Login` run: the returned value, the credential store
after the run, and the number of poll requests issued; or fuel exhaustion
of the poll loop. -/
inductive LoginRun where
  | finished (result : Except String String) (store : Option CredStore)
      (pollsIssued : Nat)
  | fuelOut
deriving DecidableEq

/-- Embeds `Login`: default the profile, initiate the session (each
failure mode with its Go message), open the browser (no effect on the
result), poll for completion, and on success store the key under the
given profile.  The decoded `LoginResponse` fields only feed the poll URL
and the timeout and are opaque to control flow, so the initiation body is
summarized by whether it parses. -/
def Login (profile : String) (init : InitiateResult) (initEvent : PollEvent)
    (events : Nat → PollEvent) (polls : Nat → PollHTTP) (fuel : Nat)
    (store : Option CredStore) : LoginRun :=
  let profile := if profile = "" then "default" else profile
  match init with
  | .netError =>
    .finished (.error
      "could not connect to PortEden. Please check your internet connection and try again")
      store 0
  | .readError =>
    .finished (.error "could not read server response. Please try again") store 0
  | .response statusCode parsedOk =>
    if statusCode == 429 then
      .finished (.error "too many login attempts. Please wait a minute and try again")
        store 0
    else if statusCode != 200 then
      .finished (.error "could not start login session. Please try again later")
        store 0
    else if !parsedOk then
      .finished (.error "failed to decode response") store 0
    else
      match pollForCompletion initEvent events polls fuel with
      | .fuelOut _ => .fuelOut
      | .finished (.error e) n => .finished (.error e) store n
      | .finished (.ok apiKey) n =>
        match StoreAPIKey apiKey profile store with
        | (.error e, store2) =>
          .finished (.error ("failed to store API key: " ++ e)) store2 n
        | (.ok _, store2) => .finished (.ok apiKey) store2 n

end Auth

namespace Api

/-- Every request issued during any `doWithRetryAux` run carries the
stored body bytes. -/
theorem doWithRetryAux_bodies (transport : Nat → TransportResult) (cancel : Nat → Bool)
    (body : Option (List Nat)) :
    ∀ fuel attempt backoff lastErr b,
      b ∈ (doWithRetryAux transport cancel body fuel attempt backoff lastErr).bodiesSent →
      b = body := by
  intro fuel
  induction fuel with
  | zero =>
    intro attempt backoff lastErr b hb
    simp [doWithRetryAux] at hb
  | succ n ih =>
    intro attempt backoff lastErr b hb
    rw [doWithRetryAux] at hb
    split at hb
    · simp at hb
    · split at hb
      · simp [consRun] at hb
        rcases hb with h | h
        · exact h
        · exact ih _ _ _ _ h
      · split at hb
        · simp [consRun] at hb
          rcases hb with h | h
          · exact h
          · exact ih _ _ _ _ h
        · simp at hb
          exact hb

/-- A run whose attempts all fail (network error or retryable status)
exhausts its budget: the outcome wraps the failure of the last attempt and
one request is issued per unit of fuel. -/
theorem doWithRetryAux_exhaust (transport : Nat → TransportResult) (cancel : Nat → Bool)
    (body : Option (List Nat)) :
    ∀ m attempt backoff lastErr,
      (∀ i, attempt ≤ i → i ≤ attempt + m → isFailure (transport i) = true) →
      (∀ i, i ≠ 0 → attempt ≤ i → i ≤ attempt + m → cancel i = false) →
      (doWithRetryAux transport cancel body (m + 1) attempt backoff lastErr).outcome
          = .exhausted (some (lastErrOf (transport (attempt + m)))) ∧
        (doWithRetryAux transport cancel body (m + 1) attempt backoff
            lastErr).bodiesSent.length = m + 1 := by
  intro m
  induction m with
  | zero =>
    intro attempt backoff lastErr hfail hcancel
    have hc : (attempt != 0 && cancel attempt) = false := by
      by_cases h0 : attempt = 0
      · subst h0; simp
      · have := hcancel attempt h0 (le_refl _) (by omega)
        simp [this]
    rw [doWithRetryAux]
    rw [hc]
    have hf := hfail attempt (le_refl _) (by omega)
    cases ht : transport attempt with
    | netError msg =>
      simp [doWithRetryAux, consRun, lastErrOf, ht]
    | response resp =>
      simp only [ht, isFailure] at hf
      simp [doWithRetryAux, consRun, lastErrOf, ht, hf]
  | succ n ih =>
    intro attempt backoff lastErr hfail hcancel
    have hc : (attempt != 0 && cancel attempt) = false := by
      by_cases h0 : attempt = 0
      · subst h0; simp
      · have := hcancel attempt h0 (le_refl _) (by omega)
        simp [this]
    have hshift : attempt + 1 + n = attempt + (n + 1) := by omega
    have ih2 := ih (attempt + 1)
    rw [hshift] at ih2
    rw [doWithRetryAux]
    rw [hc]
    have hf := hfail attempt (le_refl _) (by omega)
    cases ht : transport attempt with
    | netError msg =>
      have h2 := ih2 (min (backoff * 2) maxBackoff) (some (.netErr msg))
        (fun i h1 h2 => hfail i (by omega) (by omega))
        (fun i h1 h2 h3 => hcancel i h1 (by omega) (by omega))
      simp [consRun, h2.1, h2.2]
    | response resp =>
      simp only [ht, isFailure] at hf
      have h2 := ih2 (nextBackoffResp backoff resp) (some (.httpStatus resp.statusCode))
        (fun i h1 h2 => hfail i (by omega) (by omega))
        (fun i h1 h2 h3 => hcancel i h1 (by omega) (by omega))
      simp [consRun, hf, h2.1, h2.2]

/-- A run whose first `k` attempts fail and whose attempt `k` yields a
non-retryable response returns that response, having issued exactly
`k + 1` requests. -/
theorem doWithRetryAux_success (transport : Nat → TransportResult) (cancel : Nat → Bool)
    (body : Option (List Nat)) :
    ∀ k fuel attempt backoff lastErr resp,
      k < fuel →
      (∀ i, attempt ≤ i → i < attempt + k → isFailure (transport i) = true) →
      transport (attempt + k) = .response resp →
      isRetryable resp.statusCode = false →
      (∀ i, i ≠ 0 → attempt ≤ i → i ≤ attempt + k → cancel i = false) →
      (doWithRetryAux transport cancel body fuel attempt backoff lastErr).outcome
          = .success resp ∧
        (doWithRetryAux transport cancel body fuel attempt backoff
            lastErr).bodiesSent.length = k + 1 := by
  intro k
  induction k with
  | zero =>
    intro fuel attempt backoff lastErr resp hfuel hfail ht hnr hcancel
    obtain ⟨f, rfl⟩ : ∃ f, fuel = f + 1 := ⟨fuel - 1, by omega⟩
    have hc : (attempt != 0 && cancel attempt) = false := by
      by_cases h0 : attempt = 0
      · subst h0; simp
      · have := hcancel attempt h0 (le_refl _) (by omega)
        simp [this]
    rw [Nat.add_zero] at ht
    rw [doWithRetryAux, hc, ht]
    simp [hnr]
  | succ n ih =>
    intro fuel attempt backoff lastErr resp hfuel hfail ht hnr hcancel
    obtain ⟨f, rfl⟩ : ∃ f, fuel = f + 1 := ⟨fuel - 1, by omega⟩
    have hc : (attempt != 0 && cancel attempt) = false := by
      by_cases h0 : attempt = 0
      · subst h0; simp
      · have := hcancel attempt h0 (le_refl _) (by omega)
        simp [this]
    have hshift : attempt + 1 + n = attempt + (n + 1) := by omega
    have hf := hfail attempt (le_refl _) (by omega)
    rw [doWithRetryAux, hc]
    cases htf : transport attempt with
    | netError msg =>
      have h2 := ih f (attempt + 1) (min (backoff * 2) maxBackoff) (some (.netErr msg))
        resp (by omega) (fun i h1 h2 => hfail i (by omega) (by omega))
        (by rw [hshift]; exact ht) hnr
        (fun i h1 h2 h3 => hcancel i h1 (by omega) (by omega))
      simp [consRun, h2.1, h2.2]
    | response r0 =>
      simp only [htf, isFailure] at hf
      have h2 := ih f (attempt + 1) (nextBackoffResp backoff r0)
        (some (.httpStatus r0.statusCode)) resp (by omega)
        (fun i h1 h2 => hfail i (by omega) (by omega))
        (by rw [hshift]; exact ht) hnr
        (fun i h1 h2 h3 => hcancel i h1 (by omega) (by omega))
      simp [consRun, hf, h2.1, h2.2]

/-- A run whose first `k` attempts fail and whose context fires during the
backoff wait guarding attempt `k` returns the cancellation outcome, having
issued exactly `k` requests. -/
theorem doWithRetryAux_cancel (transport : Nat → TransportResult) (cancel : Nat → Bool)
    (body : Option (List Nat)) :
    ∀ k fuel attempt backoff lastErr,
      k < fuel →
      (∀ i, attempt ≤ i → i < attempt + k → isFailure (transport i) = true) →
      (∀ i, i ≠ 0 → attempt ≤ i → i < attempt + k → cancel i = false) →
      attempt + k ≠ 0 →
      cancel (attempt + k) = true →
      (doWithRetryAux transport cancel body fuel attempt backoff lastErr).outcome
          = .cancelled ∧
        (doWithRetryAux transport cancel body fuel attempt backoff
            lastErr).bodiesSent.length = k := by
  intro k
  induction k with
  | zero =>
    intro fuel attempt backoff lastErr hfuel hfail hcancel hne hcan
    obtain ⟨f, rfl⟩ : ∃ f, fuel = f + 1 := ⟨fuel - 1, by omega⟩
    rw [Nat.add_zero] at hne hcan
    have hc : (attempt != 0 && cancel attempt) = true := by
      simp [hcan]
      omega
    rw [doWithRetryAux, hc]
    simp
  | succ n ih =>
    intro fuel attempt backoff lastErr hfuel hfail hcancel hne hcan
    obtain ⟨f, rfl⟩ : ∃ f, fuel = f + 1 := ⟨fuel - 1, by omega⟩
    have hc : (attempt != 0 && cancel attempt) = false := by
      by_cases h0 : attempt = 0
      · subst h0; simp
      · have := hcancel attempt h0 (le_refl _) (by omega)
        simp [this]
    have hshift : attempt + 1 + n = attempt + (n + 1) := by omega
    have hf := hfail attempt (le_refl _) (by omega)
    rw [doWithRetryAux, hc]
    cases htf : transport attempt with
    | netError msg =>
      have h2 := ih f (attempt + 1) (min (backoff * 2) maxBackoff) (some (.netErr msg))
        (by omega) (fun i h1 h2 => hfail i (by omega) (by omega))
        (fun i h1 h2 h3 => hcancel i h1 (by omega) (by omega))
        (by omega) (by rw [hshift]; exact hcan)
      simp [consRun, h2.1, h2.2]
    | response r0 =>
      simp only [htf, isFailure] at hf
      have h2 := ih f (attempt + 1) (nextBackoffResp backoff r0)
        (some (.httpStatus r0.statusCode)) (by omega)
        (fun i h1 h2 => hfail i (by omega) (by omega))
        (fun i h1 h2 h3 => hcancel i h1 (by omega) (by omega))
        (by omega) (by rw [hshift]; exact hcan)
      simp [consRun, hf, h2.1, h2.2]

end Api

end Porteden

/-- C1: for every HTTP method and byte payload, `doWithRetry` builds its
body from the same stored byte slice on every attempt, so the exact same
body bytes are sent on the initial attempt and on every retry.  (The Go
signature takes `[]byte`, not `io.Reader`, so a single-use stream cannot
be the body source; the replay property is what is visible in the trace.)
The method and target path do not influence the body handling and are
abstracted into the transport oracle. -/
theorem Porteden.Api.doWithRetry_body_replayed (transport : Nat → TransportResult)
    (cancel : Nat → Bool) (body : Option (List Nat)) :
    ∀ b ∈ (doWithRetry transport cancel body).bodiesSent, b = body := by
  intro b hb
  exact doWithRetryAux_bodies transport cancel body _ _ _ _ b hb

/-- Witness for C1 at a concrete run: an all-transient transport with a
two-byte payload; the trace is nonempty and each sent body equals the
payload. -/
theorem Porteden.Api.doWithRetry_body_replayed_witness :
    some [1, 2] ∈ (Porteden.Api.doWithRetry (fun _ => .response ⟨500, .absent⟩)
        (fun _ => false) (some [1, 2])).bodiesSent ∧
      some [1, 2] = some [1, 2] :=
  ⟨by decide,
    Porteden.Api.doWithRetry_body_replayed (fun _ => .response ⟨500, .absent⟩)
      (fun _ => false) (some [1, 2]) (some [1, 2]) (by decide)⟩

/-- C2: when every attempt draws a response with a status in
{429, 500, 502, 503, 504} (and the context never fires), `doWithRetry`
issues exactly `maxRetries` additional attempts after the initial one —
`maxRetries + 1 = 4` requests in total — and returns a terminal error
wrapping the last observed failure; and whenever the first non-transient
response appears (at any attempt `k` within the budget), `doWithRetry`
returns that response at once, with no attempt after it. -/
theorem Porteden.Api.doWithRetry_retry_policy :
    (∀ (transport : Nat → TransportResult) (cancel : Nat → Bool)
        (body : Option (List Nat)),
        (∀ i, i ≤ maxRetries → ∃ resp, transport i = .response resp ∧
            isRetryable resp.statusCode = true) →
        (∀ i, cancel i = false) →
        ∃ resp, transport maxRetries = .response resp ∧
          (doWithRetry transport cancel body).outcome
              = .exhausted (some (.httpStatus resp.statusCode)) ∧
          (doWithRetry transport cancel body).bodiesSent.length = maxRetries + 1) ∧
    (∀ (transport : Nat → TransportResult) (cancel : Nat → Bool)
        (body : Option (List Nat)) (k : Nat) (resp : Response),
        k ≤ maxRetries →
        (∀ i, i < k → isFailure (transport i) = true) →
        transport k = .response resp →
        isRetryable resp.statusCode = false →
        (∀ i, cancel i = false) →
        (doWithRetry transport cancel body).outcome = .success resp ∧
        (doWithRetry transport cancel body).bodiesSent.length = k + 1) := by
  constructor
  · intro transport cancel body htrans hcancel
    obtain ⟨resp, hresp, hret⟩ := htrans maxRetries (le_refl _)
    refine ⟨resp, hresp, ?_⟩
    have h := Porteden.Api.doWithRetryAux_exhaust transport cancel body maxRetries 0
      initialBackoff none
      (fun i _ h2 => by
        obtain ⟨r, hr, hrr⟩ := htrans i (by omega)
        simp [isFailure, hr, hrr])
      (fun i _ _ _ => hcancel i)
    rw [Nat.zero_add, hresp] at h
    rw [doWithRetry]
    simpa [lastErrOf] using h
  · intro transport cancel body k resp hk hfail ht hnr hcancel
    have h := Porteden.Api.doWithRetryAux_success transport cancel body k (maxRetries + 1)
      0 initialBackoff none resp (by omega)
      (fun i _ h2 => hfail i (by omega))
      (by rw [Nat.zero_add]; exact ht) hnr
      (fun i _ _ _ => hcancel i)
    rw [doWithRetry]
    exact h

/-- Witness for C2: an all-503 transport exhausts the budget with 4
requests; a transport answering 404 on the first attempt returns at once
with a single request. -/
theorem Porteden.Api.doWithRetry_retry_policy_witness :
    (∃ resp, (fun _ : Nat => TransportResult.response ⟨503, .absent⟩) Porteden.Api.maxRetries
          = .response resp ∧
        (Porteden.Api.doWithRetry (fun _ => .response ⟨503, .absent⟩) (fun _ => false)
            none).outcome = .exhausted (some (.httpStatus resp.statusCode)) ∧
        (Porteden.Api.doWithRetry (fun _ => .response ⟨503, .absent⟩) (fun _ => false)
            none).bodiesSent.length = Porteden.Api.maxRetries + 1) ∧
    ((Porteden.Api.doWithRetry (fun _ => .response ⟨404, .absent⟩) (fun _ => false)
          none).outcome = .success ⟨404, .absent⟩ ∧
      (Porteden.Api.doWithRetry (fun _ => .response ⟨404, .absent⟩) (fun _ => false)
          none).bodiesSent.length = 0 + 1) :=
  ⟨Porteden.Api.doWithRetry_retry_policy.1 _ _ none
      (fun _ _ => ⟨⟨503, .absent⟩, rfl, rfl⟩) (fun _ => rfl),
    Porteden.Api.doWithRetry_retry_policy.2 _ _ none 0 ⟨404, .absent⟩ (by decide)
      (fun i hi => absurd hi (Nat.not_lt_zero i)) rfl rfl (fun _ => rfl)⟩

/-- C4: if the first `k` attempts fail and the caller's context fires
during the backoff wait that guards attempt `k`, `doWithRetry` returns
the context's cancellation error at once: exactly the `k` requests of the
earlier attempts were issued, none at or after attempt `k`. -/
theorem Porteden.Api.doWithRetry_cancel_during_backoff
    (transport : Nat → TransportResult) (cancel : Nat → Bool)
    (body : Option (List Nat)) (k : Nat)
    (hk1 : 1 ≤ k) (hk2 : k ≤ maxRetries)
    (hfail : ∀ i, i < k → isFailure (transport i) = true)
    (hprev : ∀ i, i ≠ 0 → i < k → cancel i = false)
    (hcan : cancel k = true) :
    (doWithRetry transport cancel body).outcome = .cancelled ∧
    (doWithRetry transport cancel body).bodiesSent.length = k := by
  have h := Porteden.Api.doWithRetryAux_cancel transport cancel body k (maxRetries + 1)
    0 initialBackoff none (by omega)
    (fun i _ h2 => hfail i (by omega))
    (fun i h1 _ h3 => hprev i h1 (by omega))
    (by omega) (by rw [Nat.zero_add]; exact hcan)
  rw [doWithRetry]
  exact h

/-- Witness for C4: a 500 on the first attempt followed by a context that
fires during the first backoff wait cancels the run after the single
initial request. -/
theorem Porteden.Api.doWithRetry_cancel_during_backoff_witness :
    (Porteden.Api.doWithRetry (fun _ => .response ⟨500, .absent⟩) (fun i => i == 1)
        none).outcome = .cancelled ∧
      (Porteden.Api.doWithRetry (fun _ => .response ⟨500, .absent⟩) (fun i => i == 1)
          none).bodiesSent.length = 1 :=
  Porteden.Api.doWithRetry_cancel_during_backoff _ _ none 1 (by decide) (by decide)
    (fun _ _ => rfl) (fun i hne hi => absurd hi (by omega)) rfl

namespace Porteden

namespace Api

/-- Shifting the base of a backoff sequence by one processed attempt. -/
theorem backoffSeq_shift (transport : Nat → TransportResult) :
    ∀ j b a, backoffSeq transport (nextBackoff b (transport a)) (a + 1) j
      = backoffSeq transport b a (j + 1) := by
  intro j
  induction j with
  | zero =>
    intro b a
    simp [backoffSeq]
  | succ n ih =>
    intro b a
    simp only [backoffSeq]
    rw [ih]
    have h : a + 1 + n = a + (n + 1) := by omega
    rw [h, backoffSeq]

/-- The claimed wait schedule is the backoff sequence rooted at
`initialBackoff` before attempt 0, shifted by one. -/
theorem claimWaitSchedule_eq_backoffSeq (transport : Nat → TransportResult) :
    ∀ i, claimWaitSchedule transport i = backoffSeq transport initialBackoff 0 (i + 1) := by
  intro i
  induction i with
  | zero =>
    simp [claimWaitSchedule, backoffSeq]
  | succ n ih =>
    simp only [claimWaitSchedule, backoffSeq]
    rw [ih]
    have h : (0 : Nat) + (n + 1) = n + 1 := by omega
    rw [h, backoffSeq]

/-- With a context that never fires, the waits of a run entered at attempt
`a ≥ 1` with backoff `b` form a prefix of the backoff sequence rooted at
`b`. -/
theorem doWithRetryAux_waits (transport : Nat → TransportResult) (cancel : Nat → Bool)
    (body : Option (List Nat)) (hcancel : ∀ i, cancel i = false) :
    ∀ fuel a b lastErr, a ≠ 0 →
      ∃ m, (doWithRetryAux transport cancel body fuel a b lastErr).waits
        = (List.range m).map (backoffSeq transport b a) := by
  intro fuel
  induction fuel with
  | zero =>
    intro a b lastErr ha
    exact ⟨0, by simp [doWithRetryAux]⟩
  | succ n ih =>
    intro a b lastErr ha
    have hc : (a != 0 && cancel a) = false := by simp [hcancel a]
    have ha2 : (a != 0) = true := by simp [ha]
    rw [doWithRetryAux, hc]
    cases ht : transport a with
    | netError msg =>
      obtain ⟨m, hm⟩ := ih (a + 1) (min (b * 2) maxBackoff) (some (.netErr msg))
        (by omega)
      refine ⟨m + 1, ?_⟩
      have hb2 : nextBackoff b (transport a) = min (b * 2) maxBackoff := by
        rw [ht, nextBackoff]
      have hfun : backoffSeq transport (min (b * 2) maxBackoff) (a + 1)
          = fun j => backoffSeq transport b a (j + 1) := by
        funext j
        rw [← hb2, backoffSeq_shift]
      simp only [consRun, ha2, if_true, hm, hfun]
      rw [List.range_succ_eq_map, List.map_cons, List.map_map]
      simp [backoffSeq, Function.comp]
    | response resp =>
      by_cases hr : isRetryable resp.statusCode = true
      · obtain ⟨m, hm⟩ := ih (a + 1) (nextBackoffResp b resp)
          (some (.httpStatus resp.statusCode)) (by omega)
        refine ⟨m + 1, ?_⟩
        have hb2 : nextBackoff b (transport a) = nextBackoffResp b resp := by
          rw [ht, nextBackoff]
        have hfun : backoffSeq transport (nextBackoffResp b resp) (a + 1)
            = fun j => backoffSeq transport b a (j + 1) := by
          funext j
          rw [← hb2, backoffSeq_shift]
        simp only [hr, if_true, consRun, ha2, hm, hfun]
        rw [List.range_succ_eq_map, List.map_cons, List.map_map]
        simp [backoffSeq, Function.comp]
      · refine ⟨1, ?_⟩
        simp only [Bool.not_eq_true] at hr
        simp [hr, ha2, backoffSeq, List.range_succ]

/-- With a context that never fires, the waits of a full `doWithRetry`
run form a prefix of the claimed wait schedule. -/
theorem doWithRetry_waits_exists (transport : Nat → TransportResult) (cancel : Nat → Bool)
    (body : Option (List Nat)) (hcancel : ∀ i, cancel i = false) :
    ∃ m, (doWithRetry transport cancel body).waits
      = (List.range m).map (claimWaitSchedule transport) := by
  have hsched : claimWaitSchedule transport
      = backoffSeq transport (nextBackoff initialBackoff (transport 0)) 1 := by
    funext i
    rw [claimWaitSchedule_eq_backoffSeq]
    have h0 : (0 : Nat) + 1 = 1 := rfl
    rw [← backoffSeq_shift transport i initialBackoff 0, h0]
  have hc : ((0 : Nat) != 0 && cancel 0) = false := by simp
  rw [doWithRetry, doWithRetryAux, hc]
  cases ht : transport 0 with
  | netError msg =>
    obtain ⟨m, hm⟩ := doWithRetryAux_waits transport cancel body hcancel maxRetries
      1 (min (initialBackoff * 2) maxBackoff) (some (.netErr msg)) (by omega)
    refine ⟨m, ?_⟩
    have hb2 : nextBackoff initialBackoff (transport 0)
        = min (initialBackoff * 2) maxBackoff := by rw [ht, nextBackoff]
    simp only [consRun, hsched, hb2]
    simpa using hm
  | response resp =>
    by_cases hr : isRetryable resp.statusCode = true
    · obtain ⟨m, hm⟩ := doWithRetryAux_waits transport cancel body hcancel maxRetries
        1 (nextBackoffResp initialBackoff resp) (some (.httpStatus resp.statusCode))
        (by omega)
      refine ⟨m, ?_⟩
      have hb2 : nextBackoff initialBackoff (transport 0)
          = nextBackoffResp initialBackoff resp := by rw [ht, nextBackoff]
      simp only [hr, if_true, consRun, hsched, hb2]
      simpa using hm
    · refine ⟨0, ?_⟩
      simp only [Bool.not_eq_true] at hr
      simp [hr]

end Api

end Porteden

/-- C3: with a context that never fires, the sequence of backoff waits of
a `doWithRetry` run follows exactly the claimed schedule: the wait before
retry attempt `i + 1` is `nextBackoff` of the previous backoff
(`initialBackoff` before any retry) and the outcome of attempt `i` —
`min(parsed Retry-After, maxBackoff)` for a transient response whose
`Retry-After` parses to a positive duration, and the previous backoff
doubled capped at `maxBackoff` for a network error or a transient
response without such a header. -/
theorem Porteden.Api.doWithRetry_backoff_schedule (transport : Nat → TransportResult)
    (cancel : Nat → Bool) (body : Option (List Nat))
    (hcancel : ∀ i, cancel i = false) :
    (doWithRetry transport cancel body).waits
      = (List.range (doWithRetry transport cancel body).waits.length).map
          (claimWaitSchedule transport) := by
  obtain ⟨m, hm⟩ := Porteden.Api.doWithRetry_waits_exists transport cancel body hcancel
  rw [hm, List.length_map, List.length_range]

/-- Witness for C3 on `mixedTransport`: the schedule theorem applies, and
the three waits evaluate to 2s (doubled from 1s), 5s (the Retry-After),
and 10s (5s doubled after the network error). -/
theorem Porteden.Api.doWithRetry_backoff_schedule_witness :
    ((Porteden.Api.doWithRetry Porteden.Api.mixedTransport (fun _ => false) none).waits
        = (List.range (Porteden.Api.doWithRetry Porteden.Api.mixedTransport
            (fun _ => false) none).waits.length).map
          (Porteden.Api.claimWaitSchedule Porteden.Api.mixedTransport)) ∧
      (Porteden.Api.doWithRetry Porteden.Api.mixedTransport (fun _ => false) none).waits
        = [2000000000, 5000000000, 10000000000] :=
  ⟨Porteden.Api.doWithRetry_backoff_schedule Porteden.Api.mixedTransport _ none
      (fun _ => rfl), by decide⟩

namespace Porteden

namespace Auth

/-- Skipping `k` non-terminal ticks of the poll loop. -/
theorem pollLoopAux_skip (events : Nat → PollEvent) (polls : Nat → PollHTTP) :
    ∀ k fuel n,
      (∀ i, n ≤ i → i < n + k → events i = .tick ∧ processPoll (polls i) = none) →
      pollLoopAux events polls (fuel + k) n = pollLoopAux events polls fuel (n + k) := by
  intro k
  induction k with
  | zero =>
    intro fuel n _
    rfl
  | succ m ih =>
    intro fuel n h
    have h0 := h n (le_refl _) (by omega)
    have hstep : fuel + (m + 1) = (fuel + m) + 1 := by omega
    rw [hstep, pollLoopAux]
    simp only [h0.1, h0.2]
    rw [ih fuel (n + 1) (fun i h1 h2 => h i (by omega) (by omega))]
    congr 1
    omega

/-- After `k` non-terminal ticks, a tick whose poll processes to a
terminal result finishes the loop with `k + 1` polls issued beyond `n`. -/
theorem pollLoopAux_terminal (events : Nat → PollEvent) (polls : Nat → PollHTTP)
    (k fuel n : Nat) (r : Except String String)
    (hk : k < fuel)
    (hpre : ∀ i, n ≤ i → i < n + k → events i = .tick ∧ processPoll (polls i) = none)
    (hev : events (n + k) = .tick)
    (hr : processPoll (polls (n + k)) = some r) :
    pollLoopAux events polls fuel n = .finished r (n + k + 1) := by
  obtain ⟨m, rfl⟩ : ∃ m, fuel = (m + 1) + k := ⟨fuel - k - 1, by omega⟩
  rw [pollLoopAux_skip events polls k (m + 1) n hpre, pollLoopAux]
  simp [hev, hr]

/-- After `k` non-terminal ticks, the overall timer firing ends the loop
with no further poll issued. -/
theorem pollLoopAux_timer (events : Nat → PollEvent) (polls : Nat → PollHTTP)
    (k fuel n : Nat)
    (hk : k < fuel)
    (hpre : ∀ i, n ≤ i → i < n + k → events i = .tick ∧ processPoll (polls i) = none)
    (hev : events (n + k) = .timerFired) :
    pollLoopAux events polls fuel n = .finished (.error "login timed out") (n + k) := by
  obtain ⟨m, rfl⟩ : ∃ m, fuel = (m + 1) + k := ⟨fuel - k - 1, by omega⟩
  rw [pollLoopAux_skip events polls k (m + 1) n hpre, pollLoopAux]
  simp [hev]

/-- Updating a profile key makes it the value found for that profile. -/
theorem lookup_setProfileKey (key : String) :
    ∀ ps p, List.lookup p (setProfileKey ps p key) = some key := by
  intro ps
  induction ps with
  | nil =>
    intro p
    simp [setProfileKey, List.lookup]
  | cons qv rest ih =>
    intro p
    obtain ⟨q, v⟩ := qv
    rw [setProfileKey]
    by_cases h : q = p
    · rw [if_pos h]
      simp [List.lookup]
    · rw [if_neg h]
      have h2 : ¬ p = q := fun hc => h hc.symm
      have h3 : (p == q) = false := beq_false_of_ne h2
      simp [List.lookup, h2, h3, ih]

end Auth

end Porteden

/-- C6: whenever a poll request returns HTTP 404 — at any iteration `k`
of the poll loop, after any number of non-terminal ticks —
`pollForCompletion` terminates at once with the "login session expired"
error having issued exactly `k + 1` polls; in this event model
"regardless of the remaining timeout budget" is quantification over every
oracle whose timer has not fired by then. -/
theorem Porteden.Auth.pollForCompletion_404_terminal
    (events : Nat → PollEvent) (polls : Nat → PollHTTP) (fuel k : Nat) (body : PollBody)
    (hk : k < fuel)
    (hpre : ∀ i, i < k → events i = .tick ∧ processPoll (polls i) = none)
    (hev : events k = .tick)
    (h404 : polls k = .response 404 body) :
    pollForCompletion .tick events polls fuel
      = .finished (.error "login session expired. Please try again") (k + 1) := by
  have h := Porteden.Auth.pollLoopAux_terminal events polls k fuel 0
    (.error "login session expired. Please try again") hk
    (fun i _ h2 => hpre i (by omega)) (by rw [Nat.zero_add]; exact hev)
    (by rw [Nat.zero_add, h404]; rfl)
  rw [Nat.zero_add] at h
  exact h

/-- Witness for C6: one pending poll, then a 404 on the second poll,
while ticks keep firing and plenty of fuel remains. -/
theorem Porteden.Auth.pollForCompletion_404_terminal_witness :
    Porteden.Auth.pollForCompletion .tick (fun _ => .tick)
        (fun n => if n < 1 then .response 200 (.parsed ⟨"pending", none, none⟩)
          else .response 404 .unparseable) 10
      = .finished (.error "login session expired. Please try again") 2 :=
  Porteden.Auth.pollForCompletion_404_terminal _ _ 10 1 .unparseable (by decide)
    (fun i hi => ⟨rfl, by rw [if_pos hi]; rfl⟩) rfl rfl

/-- C7: the overall poll timeout equals `max(time until expiresAt, 90s)`
(`pollTimeoutNs`, computed when `pollForCompletion` starts); and whenever
the overall timer fires first — during the initial 10-second delay, or at
any later loop iteration — the flow returns the "login timed out" error
and issues no further polls. -/
theorem Porteden.Auth.pollForCompletion_timeout :
    (∀ untilExpiry : Int,
        pollTimeoutNs untilExpiry = max untilExpiry (90 * nsPerSecond)) ∧
    (∀ (events : Nat → PollEvent) (polls : Nat → PollHTTP) (fuel : Nat),
        pollForCompletion .timerFired events polls fuel
          = .finished (.error "login timed out") 0) ∧
    (∀ (events : Nat → PollEvent) (polls : Nat → PollHTTP) (fuel k : Nat),
        k < fuel →
        (∀ i, i < k → events i = .tick ∧ processPoll (polls i) = none) →
        events k = .timerFired →
        pollForCompletion .tick events polls fuel
          = .finished (.error "login timed out") k) := by
  refine ⟨?_, ?_, ?_⟩
  · intro u
    rw [pollTimeoutNs]
    rcases lt_or_le u (90 * nsPerSecond) with h | h
    · rw [if_pos h, max_eq_right (le_of_lt h)]
    · rw [if_neg (not_lt.mpr h), max_eq_left h]
  · intro events polls fuel
    rfl
  · intro events polls fuel k hk hpre hev
    have h := Porteden.Auth.pollLoopAux_timer events polls k fuel 0 hk
      (fun i _ h2 => hpre i (by omega)) (by rw [Nat.zero_add]; exact hev)
    rw [Nat.zero_add] at h
    exact h

/-- Witness for C7: the floor applies to a short expiry, and a timer that
fires at the second loop iteration ends the flow after the single earlier
poll. -/
theorem Porteden.Auth.pollForCompletion_timeout_witness :
    Porteden.Auth.pollTimeoutNs 10 = max 10 (90 * Porteden.nsPerSecond) ∧
    Porteden.Auth.pollForCompletion .tick
        (fun i => if i == 0 then .tick else .timerFired) (fun _ => .netError) 5
      = .finished (.error "login timed out") 1 :=
  ⟨Porteden.Auth.pollForCompletion_timeout.1 10,
    Porteden.Auth.pollForCompletion_timeout.2.2 _ _ 5 1 (by decide)
      (fun i hi => by
        have h0 : i = 0 := by omega
        subst h0
        exact ⟨rfl, rfl⟩)
      rfl⟩

/-- C5 (amended): with a successfully created session, `k` non-terminal
poll iterations and a `completed` poll carrying `key` at iteration `k`,
`Login` returns `key` after exactly `k + 1` polls, and before returning
has persisted `key` to the credential store under the profile given to
`Login` ("default" when the argument is empty) — which is the store's
active profile only when the caller passes that profile. -/
theorem Porteden.Auth.Login_poll_completion
    (profile key : String) (e : Option String) (s : CredStore)
    (events : Nat → PollEvent) (polls : Nat → PollHTTP) (fuel k : Nat)
    (hk : k < fuel)
    (hpre : ∀ i, i < k → events i = .tick ∧ processPoll (polls i) = none)
    (hev : events k = .tick)
    (hcomp : polls k = .response 200 (.parsed ⟨"completed", some key, e⟩)) :
    Login profile (.response 200 true) .tick events polls fuel (some s)
        = .finished (.ok key)
          (some { s with profiles :=
              (setProfileKey s.profiles (if profile = "" then "default" else profile) key) })
          (k + 1) ∧
      lookupProfile
          (setProfileKey s.profiles (if profile = "" then "default" else profile) key)
          (if profile = "" then "default" else profile) = some key := by
  refine ⟨?_, Porteden.Auth.lookup_setProfileKey key s.profiles _⟩
  have h := Porteden.Auth.pollLoopAux_terminal events polls k fuel 0 (.ok key) hk
    (fun i _ h2 => hpre i (by omega)) (by rw [Nat.zero_add]; exact hev)
    (by rw [Nat.zero_add, hcomp]; rfl)
  rw [Nat.zero_add] at h
  have hpoll : pollForCompletion .tick events polls fuel
      = .finished (.ok key) (k + 1) := h
  by_cases hp : profile = ""
  · simp [Login, hp, hpoll, StoreAPIKey]
  · simp [Login, hp, hpoll, StoreAPIKey]

/-- Witness for C5: the poll sequence pending, pending,
completed with key "k": `Login` on profile "work" over an initialized
store returns "k" after exactly 3 polls with "k" stored under "work". -/
theorem Porteden.Auth.Login_poll_completion_witness :
    Porteden.Auth.Login "work" (.response 200 true) .tick (fun _ => .tick)
        (fun n => if n < 2 then .response 200 (.parsed ⟨"pending", none, none⟩)
          else .response 200 (.parsed ⟨"completed", some "k", none⟩)) 5
        (some ⟨"other", []⟩)
        = .finished (.ok "k") (some ⟨"other", [("work", "k")]⟩) 3 ∧
      Porteden.Auth.lookupProfile [("work", "k")] "work" = some "k" :=
  Porteden.Auth.Login_poll_completion "work" "k" none ⟨"other", []⟩ _ _ 5 2 (by decide)
    (fun i hi => ⟨rfl, by rw [if_pos hi]; rfl⟩) rfl rfl

/-- Counterexample for C5 as stated: the same run with an initialized
store whose active profile is "work" and a `Login` call for the (default)
profile "" returns "k" after 3 polls, but the key is persisted under
"default", not under the active profile "work": looking the active
profile up in the resulting store finds nothing. -/
theorem Porteden.Auth.Login_active_profile_counterexample :
    Porteden.Auth.Login "" (.response 200 true) .tick (fun _ => .tick)
        (fun n => if n < 2 then .response 200 (.parsed ⟨"pending", none, none⟩)
          else .response 200 (.parsed ⟨"completed", some "k", none⟩)) 5
        (some ⟨"work", []⟩)
        = .finished (.ok "k") (some ⟨"work", [("default", "k")]⟩) 3 ∧
      Porteden.Auth.lookupProfile [("default", "k")] "work" = none := by
  constructor
  · rfl
  · rfl

/-- C8 (amended): an `invalid_secret` poll body always terminates the
flow with the fixed message "invalid poll secret - session may be
compromised"; a `failed` body terminates it with the server-supplied
reason, or "authentication failed" when none is supplied; the two errors
are plain message-carrying errors distinguished by their text, which
differs exactly when the server-supplied reason is not itself the fixed
invalid-secret message. -/
theorem Porteden.Auth.invalid_secret_error_reporting :
    (∀ ak e : Option String,
        processPoll (.response 200 (.parsed ⟨"invalid_secret", ak, e⟩))
          = some (.error "invalid poll secret - session may be compromised")) ∧
    (∀ ak e : Option String,
        processPoll (.response 200 (.parsed ⟨"failed", ak, e⟩))
          = some (.error (Option.getD e "authentication failed"))) ∧
    (∀ e : Option String,
        Option.getD e "authentication failed"
            = "invalid poll secret - session may be compromised"
          ↔ e = some "invalid poll secret - session may be compromised") := by
  refine ⟨fun ak e => rfl, fun ak e => rfl, fun e => ?_⟩
  constructor
  · intro h
    cases e with
    | none => exact absurd h (by decide)
    | some m =>
      simp only [Option.getD_some] at h
      rw [h]
  · intro h
    rw [h]
    rfl

/-- Counterexample for C8 as stated: when the server supplies the failure
reason "invalid poll secret - session may be compromised" on a `failed`
status, the reported error is identical to the one reported for
`invalid_secret` — in the Go source both are built by `errors.New` /
`fmt.Errorf` from these strings, so no distinct error type separates
them. -/
theorem Porteden.Auth.invalid_secret_error_counterexample :
    Porteden.Auth.processPoll (.response 200 (.parsed ⟨"failed", none,
        some "invalid poll secret - session may be compromised"⟩))
      = Porteden.Auth.processPoll
        (.response 200 (.parsed ⟨"invalid_secret", none, none⟩)) := rfl

/-- C9 (amended): before the store is initialized, `StoreAPIKey`,
`GetStoredAPIKey`, `DeleteAPIKey`, `SetActiveProfile` and `ListProfiles`
all fail with the distinct "not initialized" error and leave the store
untouched — but `GetActiveProfile` does not: it silently answers
"default" instead of reporting the uninitialized state. -/
theorem Porteden.Auth.store_ops_uninitialized :
    (∀ apiKey profile, StoreAPIKey apiKey profile none = (.error notInitMsg, none)) ∧
    (∀ profile, GetStoredAPIKey profile none = .error notInitMsg) ∧
    (∀ profile, DeleteAPIKey profile none = (.error notInitMsg, none)) ∧
    (∀ profile, SetActiveProfile profile none = (.error notInitMsg, none)) ∧
    ListProfiles none = .error notInitMsg ∧
    GetActiveProfile none = "default" :=
  ⟨fun _ _ => rfl, fun _ => rfl, fun _ => rfl, fun _ => rfl, rfl, rfl⟩

/-- Counterexample for C9 as stated: `GetActiveProfile` invoked before
initialization does not fail with a "not initialized" error — its Go
signature has no error result at all — and silently returns the profile
name "default". -/
theorem Porteden.Auth.store_ops_uninitialized_counterexample :
    Porteden.Auth.GetActiveProfile none = "default" := rfl

/-- C10: a 200 poll whose parsed body has status `completed` but no
`apiKey` terminates the flow at once with the "no API key in response"
error: it is not treated as pending, exactly `k + 1` polls have been
issued, and the credential store `Login` returns is unchanged — nothing
was persisted. -/
theorem Porteden.Auth.Login_completed_without_key
    (profile : String) (store : Option CredStore) (e : Option String)
    (events : Nat → PollEvent) (polls : Nat → PollHTTP) (fuel k : Nat)
    (hk : k < fuel)
    (hpre : ∀ i, i < k → events i = .tick ∧ processPoll (polls i) = none)
    (hev : events k = .tick)
    (hcomp : polls k = .response 200 (.parsed ⟨"completed", none, e⟩)) :
    Login profile (.response 200 true) .tick events polls fuel store
      = .finished (.error "no API key in response") store (k + 1) := by
  have h := Porteden.Auth.pollLoopAux_terminal events polls k fuel 0
    (.error "no API key in response") hk
    (fun i _ h2 => hpre i (by omega)) (by rw [Nat.zero_add]; exact hev)
    (by rw [Nat.zero_add, hcomp]; rfl)
  rw [Nat.zero_add] at h
  have hpoll : pollForCompletion .tick events polls fuel
      = .finished (.error "no API key in response") (k + 1) := h
  simp [Login, hpoll]

/-- Witness for C10: a pending poll, then a completed response without a
key, over an initialized store holding one unrelated profile: the error
surfaces after exactly 2 polls and the store is returned unchanged. -/
theorem Porteden.Auth.Login_completed_without_key_witness :
    Porteden.Auth.Login "p" (.response 200 true) .tick (fun _ => .tick)
        (fun n => if n < 1 then .response 200 (.parsed ⟨"pending", none, none⟩)
          else .response 200 (.parsed ⟨"completed", none, none⟩)) 9
        (some ⟨"default", [("default", "old")]⟩)
      = .finished (.error "no API key in response")
          (some ⟨"default", [("default", "old")]⟩) 2 :=
  Porteden.Auth.Login_completed_without_key "p"
    (some ⟨"default", [("default", "old")]⟩) none _ _ 9 1 (by decide)
    (fun i hi => ⟨rfl, by rw [if_pos hi]; rfl⟩) rfl rfl
